import Mathlib

/-!
Verification of the note discovery and tagged-fragment extraction core of
`obsidian_summary.py` (class `ObsidianSummary`).

The embedding models text as `List Char` (UTF-8 decoded; line splitting is
modelled for LF-terminated text, the only kind exercised by the claims).
Fallible Python operations are modelled with `Except PyErr`; the external
YAML parser (`yaml.safe_load`) is an abstract parameter
`parse : List Char → Option PyVal` (`Option.none` standing for a raised
`yaml.YAMLError`, the only exception its contract allows). The file-system
is abstracted to a list of `FileEntry` records carrying the results of
`os.path.getmtime` and of opening/reading the file, since `glob` enumeration
is an external collaborator.
-/

/-- Convert a string literal to the `List Char` representation used throughout. -/
def toL (s : String) : List Char := s.data

/-- ASCII fragment of Python's `\s` class (the texts in all claims are ASCII):
space, tab, newline, carriage return, vertical tab, form feed. -/
def isSpaceChar (c : Char) : Bool :=
  c = ' ' || c = '\t' || c = '\n' || c = '\r' || c = '\x0b' || c = '\x0c'

/-- ASCII fragment of Python's `\w` class: letters, digits, underscore. -/
def isWordChar (c : Char) : Bool :=
  c.isAlpha || c.isDigit || c = '_'

/-- Literal match of `pat` against the front of `s` (used to model
`str.startswith` and literal regex fragments). -/
def matchesHere : List Char → List Char → Bool
  | [], _ => true
  | _ :: _, [] => false
  | p :: ps, t :: ts => decide (p = t) && matchesHere ps ts

/-- The suffix test `(?:$|\s|[^\w#])` of the tag regex
`#<tag>(?:$|\s|[^\w#])` built at `obsidian_summary.py:186`: end of text,
a whitespace character, or a character that is neither a word character nor
`#`.  (`$` also matches before a final newline in Python, but a newline is
whitespace, so that case is subsumed by the `\s` branch.) -/
def tailBoundaryOk : List Char → Bool
  | [] => true
  | d :: _ => isSpaceChar d || !(isWordChar d || decide (d = '#'))

/-- `re.search` of the pattern `#<tag>(?:$|\s|[^\w#])` from
`obsidian_summary.py:186`, embedded for target tags made of word characters
(for which the interpolated tag is a literal; claim C10 treats
non-word tags).  The search tries every start position left to right. -/
def searchTag (tag : List Char) : List Char → Bool
  | [] => false
  | c :: rest =>
    (decide (c = '#') && matchesHere tag rest && tailBoundaryOk (rest.drop tag.length))
      || searchTag tag rest

/-- Length of the leading whitespace of a line:
`len(re.match(r'^(\s*)', line).group(1))` (`obsidian_summary.py:208`). -/
def indentOf (l : List Char) : Nat := (l.takeWhile isSpaceChar).length

/-- `re.match(r'^(\s*)-\s+', line)` (`obsidian_summary.py:198` and `:209`):
optional leading whitespace, a dash, then at least one whitespace character.
Returns the leading-whitespace length (the captured group) on success. -/
def matchListItem (l : List Char) : Option Nat :=
  match l.dropWhile isSpaceChar with
  | '-' :: c :: _ => if isSpaceChar c then some (indentOf l) else Option.none
  | _ => Option.none

/-- `not next_line.strip()` (`obsidian_summary.py:215`): the line is empty or
whitespace-only. -/
def isBlankLine (l : List Char) : Bool := l.all isSpaceChar

/-- The block-continuation test of the inner loop
(`obsidian_summary.py:215`-`:223`), checked in source order: a blank line, a
line indented strictly deeper than the block's base indent, or a line that is
not a new list item and is indented at least as deep as the base indent. -/
def continuesBlock (base : Nat) (l : List Char) : Bool :=
  if isBlankLine l then true
  else if decide (base < indentOf l) then true
  else if (matchListItem l).isNone && decide (base ≤ indentOf l) then true
  else false

/-- The two-state line scanner of `obsidian_summary.py:195`-`:235`.  The state
is `Option.none` when the cursor is outside any block (the outer `while` at a
line that has not opened a block) and `some (base, acc)` while the inner
`while` accumulates the open block's lines (held in reverse) whose item line
had leading-whitespace length `base`.  A non-continuing line seals the block
(`i = j`) and is immediately re-examined as a potential new item start, which
is the outer loop's next iteration in the source. -/
def scanLines : Option (Nat × List (List Char)) → List (List Char) → List (List (List Char))
  | Option.none, [] => []
  | some (_, acc), [] => [acc.reverse]
  | Option.none, l :: rest =>
    (match matchListItem l with
     | some base => scanLines (some (base, [l])) rest
     | Option.none => scanLines Option.none rest)
  | some (base, acc), l :: rest =>
    if continuesBlock base l then
      scanLines (some (base, l :: acc)) rest
    else
      acc.reverse ::
        (match matchListItem l with
         | some b => scanLines (some (b, [l])) rest
         | Option.none => scanLines Option.none rest)

/-- All list-item blocks of a body, in order (`obsidian_summary.py:195`-`:235`
run from the initial outside state). -/
def extractBlocks (lines : List (List Char)) : List (List (List Char)) :=
  scanLines Option.none lines

/-- `"sep".join(xs)` for list-of-chars pieces. -/
def joinWith (sep : List Char) : List (List Char) → List Char
  | [] => []
  | [x] => x
  | x :: y :: ys => x ++ sep ++ joinWith sep (y :: ys)

/-- `content.splitlines()` for LF-separated text: pieces between newlines,
with no empty trailing piece for text ending in a newline. -/
def splitlines : List Char → List (List Char)
  | [] => []
  | '\n' :: rest => [] :: splitlines rest
  | c :: rest =>
    match splitlines rest with
    | [] => [[c]]
    | l :: ls => (c :: l) :: ls

/-- The blocks kept at `obsidian_summary.py:228`: blocks whose newline-joined
text matches the tag regex. -/
def retainedBlocks (tag body : List Char) : List (List (List Char)) :=
  (extractBlocks (splitlines body)).filter fun b => searchTag tag (joinWith (toL "\n") b)

/-- The body-extraction branch of `find_tagged_notes`
(`obsidian_summary.py:183`-`:239`): cheap whole-body rejection by the tag
regex, then block segmentation, per-block retention, and joining of retained
blocks with a blank line; `Option.none` when nothing qualifies. -/
def extractTagged (tag body : List Char) : Option (List Char) :=
  if searchTag tag body then
    let tagged := retainedBlocks tag body
    if tagged.isEmpty then Option.none
    else some (joinWith (toL "\n\n") (tagged.map (joinWith (toL "\n"))))
  else Option.none

/-! ## Python values and errors -/

/-- The Python values reachable in this program's data flow: YAML scalars and
containers (dictionary keys in the configs and headers at hand are strings). -/
inductive PyVal where
  | pynone
  | str (s : List Char)
  | int (n : Int)
  | list (xs : List PyVal)
  | dict (kvs : List (List Char × PyVal))

/-- The exception classes the modelled code can raise or catch. -/
inductive PyErr where
  | fileNotFound
  | ioError
  | typeError
  | valueError
  | attributeError
deriving DecidableEq, Repr

/-! ## FrontmatterParser: `_process_frontmatter` (obsidian_summary.py:118-139) -/

/-- The delimiter `---`. -/
def threeDash : List Char := toL "---"

/-- Index of the first occurrence of `---` in `s` (`str.find`), if any. -/
def findSub : List Char → Option Nat
  | [] => Option.none
  | c :: rest =>
    if matchesHere threeDash (c :: rest) then some 0
    else (findSub rest).map (· + 1)

/-- `content.find('---', 3)` (`obsidian_summary.py:123`): first occurrence of
the delimiter at an index of at least 3, `Option.none` for Python's `-1`. -/
def findTriple (content : List Char) : Option Nat :=
  (findSub (content.drop 3)).map (· + 3)

/-- One attempted match of the template-placeholder pattern `\{\{[^}]+\}\}`
(`obsidian_summary.py:129`, braces escaped here as in the source pattern)
at the front of the text: `{{`, one or more non-`}` characters, then `}}`.
Returns the rest of the text after the match. -/
def templAt : List Char → Option (List Char)
  | '{' :: '{' :: rest =>
    if (rest.takeWhile (fun c => decide (c ≠ '}'))).isEmpty then Option.none
    else
      match rest.dropWhile (fun c => decide (c ≠ '}')) with
      | '}' :: '}' :: rem => some rem
      | _ => Option.none
  | _ => Option.none

theorem dropWhile_len_le (p : Char → Bool) : ∀ l : List Char, (l.dropWhile p).length ≤ l.length
  | [] => Nat.le_refl _
  | c :: rest => by
    simp only [List.dropWhile]
    split
    · exact Nat.le_succ_of_le (dropWhile_len_le p rest)
    · exact Nat.le_refl _

theorem templAt_length {s rem : List Char} (h : templAt s = some rem) :
    rem.length < s.length := by
  match s with
  | [] => simp [templAt] at h
  | [c] =>
    cases c <;> simp [templAt] at h
  | c1 :: c2 :: rest =>
    by_cases h1 : c1 = '{'
    · by_cases h2 : c2 = '{'
      · subst h1; subst h2
        simp only [templAt] at h
        split at h
        · exact absurd h (by simp)
        · rename_i hne
          split at h
          · rename_i cs hdrop
            have hlen : (rest.dropWhile (fun c => decide (c ≠ '}'))).length ≤ rest.length :=
              dropWhile_len_le _ rest
            rw [hdrop] at hlen
            simp only [List.length_cons] at hlen
            cases h
            simp only [List.length_cons]
            omega
          · exact absurd h (by simp)
      · simp only [templAt] at h
        subst h1
        cases c2 <;> simp_all
    · simp only [templAt] at h
      cases c1 <;> simp_all

/-- `re.sub(r'\{\{[^}]+\}\}', 'TEMPLATE_VALUE', s)`
(`obsidian_summary.py:129`-`:130`): every placeholder occurrence, scanning
left to right, is replaced by the neutral literal. -/
def subTemplate (s : List Char) : List Char :=
  match s with
  | [] => []
  | c :: rest =>
    match h : templAt (c :: rest) with
    | some rem => toL "TEMPLATE_VALUE" ++ subTemplate rem
    | Option.none => c :: subTemplate rest
termination_by s.length
decreasing_by
  · exact templAt_length h
  · simp

/-- `_process_frontmatter` (`obsidian_summary.py:118`-`:139`) with the external
YAML loader abstracted as `parse` (`Option.none` models a raised
`yaml.YAMLError`, the only failure its contract allows; the `except` clause
catches exactly that class).  Returns the frontmatter value and the remaining
text. -/
def processFrontmatter (parse : List Char → Option PyVal) (content : List Char) :
    PyVal × List Char :=
  if matchesHere threeDash content then
    match findTriple content with
    | Option.none => (.dict [], content)
    | some i =>
      match parse (subTemplate ((content.take i).drop 3)) with
      | Option.none => (.dict [], content)
      | some v => (v, content.drop (i + 3))
  else (.dict [], content)

/-! ## TimeWindowFilter: `_get_search_period` (obsidian_summary.py:89-116) -/

/-- A `datetime` as the pair of its date (a day number) and its time of day in
minutes; comparison is lexicographic, as on Python datetimes. -/
structure PyDateTime where
  day : Int
  minute : Nat
deriving DecidableEq, Repr

/-- `datetime` comparison `a <= b`. -/
def dtLE (a b : PyDateTime) : Bool :=
  decide (a.day < b.day) || (decide (a.day = b.day) && decide (a.minute ≤ b.minute))

/-- Numeric value of an ASCII digit. -/
def digitVal (c : Char) : Option Nat :=
  if c.isDigit then some (c.toNat - 48) else Option.none

/-- A one- or two-digit `strptime` field (`%H` with bound 23, `%M` with
bound 59): any single digit, or two digits whose value is within the bound. -/
def parseField2 (bound : Nat) : List Char → Option Nat
  | [c] => digitVal c
  | [c, d] =>
    match digitVal c, digitVal d with
    | some x, some y => if 10 * x + y ≤ bound then some (10 * x + y) else Option.none
    | _, _ => Option.none
  | _ => Option.none

/-- `datetime.strptime(s, '%H:%M').time()` on a string, as minutes since
midnight: an hour field, a colon, a minute field, nothing else (surplus text
is `unconverted data` and fails). -/
def parseHHMM (s : List Char) : Option Nat :=
  match s.dropWhile (fun c => decide (c ≠ ':')) with
  | ':' :: mpart =>
    match parseField2 23 (s.takeWhile (fun c => decide (c ≠ ':'))), parseField2 59 mpart with
    | some h, some m => some (h * 60 + m)
    | _, _ => Option.none
  | _ => Option.none

/-- `datetime.strptime(v, '%H:%M')` on an arbitrary configuration value:
a non-string argument raises `TypeError` inside `strptime`; a string that does
not parse raises `ValueError`. -/
def strptimeHM (v : PyVal) : Except PyErr Nat :=
  match v with
  | .str s =>
    match parseHHMM s with
    | some m => .ok m
    | Option.none => .error .valueError
  | _ => .error .typeError

/-- The `search_period` section of the configuration; `Option.none` fields are
keys absent from the mapping. -/
structure SearchPeriod where
  days : Option PyVal
  startTime : Option PyVal
  endTime : Option PyVal

/-- `obsidian_summary.py:95`-`:98`: the configured day count, replaced by 1
when it is not an integer of at least 1. -/
def pyDays (sp : SearchPeriod) : Int :=
  match sp.days.getD (.int 1) with
  | .int n => if 1 ≤ n then n else 1
  | _ => 1

/-- The `try` block of `obsidian_summary.py:101`-`:109`: parse the start time,
then the end time; a `ValueError` from either falls back to `00:00`/`23:59`
for both (the source parses the end time only when the start time succeeded);
any other exception propagates. -/
def pyTimes (sp : SearchPeriod) : Except PyErr (Nat × Nat) :=
  match strptimeHM (sp.startTime.getD (.str (toL "00:00"))) with
  | .error .valueError => .ok (0, 23 * 60 + 59)
  | .error e => .error e
  | .ok s =>
    match strptimeHM (sp.endTime.getD (.str (toL "23:59"))) with
    | .error .valueError => .ok (0, 23 * 60 + 59)
    | .error e => .error e
    | .ok e => .ok (s, e)

/-- `_get_search_period` (`obsidian_summary.py:89`-`:116`): the window is
`combine(today - (days-1), startTime)` to `combine(today, endTime)`. -/
def getSearchPeriod (today : Int) (sp : SearchPeriod) :
    Except PyErr (PyDateTime × PyDateTime) :=
  match pyTimes sp with
  | .error e => .error e
  | .ok (s, e) => .ok (⟨today - (pyDays sp - 1), s⟩, ⟨today, e⟩)


/-! ## NoteScanner: `find_tagged_notes` (obsidian_summary.py:141-243) -/

/-- Python `==` between a value and a string: only equal strings compare
equal (comparisons across types yield `False`). -/
def pyEqStr (v : PyVal) (s : List Char) : Bool :=
  match v with
  | .str t => decide (t = s)
  | _ => false

/-- `frontmatter.get('tags', [])` (`obsidian_summary.py:171`): attribute
lookup on the parsed frontmatter value — a dictionary answers the key lookup
with the default for an absent key; any other value (for example the `None`
produced by an empty header) has no `get` attribute and raises
`AttributeError`. -/
def fmGet (v : PyVal) (key : List Char) (dflt : PyVal) : Except PyErr PyVal :=
  match v with
  | .dict kvs => .ok ((kvs.lookup key).getD dflt)
  | _ => .error .attributeError

/-- `obsidian_summary.py:172`-`:175`: a `None` tags value becomes the empty
list and a string becomes a one-element list; everything else is kept. -/
def normalizeTags (v : PyVal) : PyVal :=
  match v with
  | .pynone => .list []
  | .str s => .list [.str s]
  | other => other

/-- Literal substring search (Python `pat in s` on strings). -/
def containsSub (pat : List Char) : List Char → Bool
  | [] => matchesHere pat []
  | t :: rest => matchesHere pat (t :: rest) || containsSub pat rest

/-- `self.config['target_tag'] in tags` (`obsidian_summary.py:178`): list
membership by `==`, dictionary key membership, substring membership on a
string, and `TypeError` on non-container values. -/
def tagMember (target : List Char) (v : PyVal) : Except PyErr Bool :=
  match v with
  | .list xs => .ok (xs.any (fun x => pyEqStr x target))
  | .dict kvs => .ok (kvs.any (fun kv => decide (kv.1 = target)))
  | .str s => .ok (containsSub target s)
  | _ => .error .typeError

/-- The key `tags`. -/
def tagsKey : List Char := toL "tags"

/-- The per-note classification of `obsidian_summary.py:166`-`:239` on a
note's raw content: frontmatter split, tag normalization and membership, then
either the whole original content (frontmatter tag) or the tagged-block
extraction on the post-header body; `Option.none` when the note is excluded. -/
def processNote (parse : List Char → Option PyVal) (target : List Char)
    (content : List Char) : Except PyErr (Option (List Char)) :=
  match fmGet (processFrontmatter parse content).1 tagsKey (.list []) with
  | .error e => .error e
  | .ok raw =>
    match tagMember target (normalizeTags raw) with
    | .error e => .error e
    | .ok true => .ok (some content)
    | .ok false => .ok (extractTagged target (processFrontmatter parse content).2)

/-- One candidate file as the scanner sees it: its path and the results of the
two file-system operations performed on it (`os.path.getmtime` at
`obsidian_summary.py:155`-`:156` and the open/read at `:163`-`:164`). -/
structure FileEntry where
  path : List Char
  mtime : Except PyErr PyDateTime
  content : Except PyErr (List Char)

/-- The loop body of `obsidian_summary.py:152`-`:239` for one file: the
modification-time lookup is guarded by a `try` that catches exactly
`FileNotFoundError` and skips the file; a file outside the inclusive window
is skipped; every other exception (read failure, frontmatter attribute
error, tag-membership type error) escapes the loop body. -/
def scanFile (parse : List Char → Option PyVal) (target : List Char)
    (w : PyDateTime × PyDateTime) (e : FileEntry) :
    Except PyErr (Option (List Char × List Char)) :=
  match e.mtime with
  | .error .fileNotFound => .ok Option.none
  | .error err => .error err
  | .ok t =>
    if dtLE w.1 t && dtLE t w.2 then
      match e.content with
      | .error err => .error err
      | .ok content =>
        match processNote parse target content with
        | .error err => .error err
        | .ok Option.none => .ok Option.none
        | .ok (some txt) => .ok (some (e.path, txt))
    else .ok Option.none

/-- The enumeration loop of `find_tagged_notes`: results are appended in
enumeration order; the first escaping exception aborts the loop (the outer
`except` at `obsidian_summary.py:241`-`:243` logs and re-raises it). -/
def scanFiles (parse : List Char → Option PyVal) (target : List Char)
    (w : PyDateTime × PyDateTime) : List FileEntry → Except PyErr (List (List Char × List Char))
  | [] => .ok []
  | e :: rest =>
    match scanFile parse target w e with
    | .error err => .error err
    | .ok Option.none => scanFiles parse target w rest
    | .ok (some pr) =>
      match scanFiles parse target w rest with
      | .error err => .error err
      | .ok l => .ok (pr :: l)

/-- The configuration consumed by the scanner, with `datetime.now().date()`
passed in as `today`. -/
structure ScanConfig where
  targetTag : List Char
  today : Int
  period : SearchPeriod

/-- `find_tagged_notes` (`obsidian_summary.py:141`-`:243`) over an abstract
enumeration of candidate files (the recursive `glob` is an external
collaborator): compute the search window, then scan each file. -/
def findTaggedNotes (parse : List Char → Option PyVal) (cfg : ScanConfig)
    (files : List FileEntry) : Except PyErr (List (List Char × List Char)) :=
  match getSearchPeriod cfg.today cfg.period with
  | .error e => .error e
  | .ok w => scanFiles parse cfg.targetTag w files

/-! ## Auxiliary definitions used only in claim statements -/

/-- Modelled from the spec: the word-boundary tag test as the spec's
testable property states it — an occurrence of the marker plus the exact tag
word counts only when the following character (if any) passes the boundary
test AND the occurrence is not itself preceded by another marker character,
so that for tag `project` the text `##project` does not match.  Kept for
comparison with `searchTag`, the regex the code actually builds. -/
def specTagMatchAux (tag : List Char) (prev : Option Char) : List Char → Bool
  | [] => false
  | c :: rest =>
    (decide (c = '#') && decide (prev ≠ some '#') && matchesHere tag rest
        && tailBoundaryOk (rest.drop tag.length))
      || specTagMatchAux tag (some c) rest

/-- Modelled from the spec: word-boundary tag search over a whole text. -/
def specTagMatch (tag text : List Char) : Bool :=
  specTagMatchAux tag Option.none text

/-- `re.search` of the pattern the code interpolates for the target tag
`a+b` — `#a+b(?:$|\s|[^\w#])` — under Python regex semantics: `#`, then one
or more `a` (greedily; backtracking cannot help because a shorter run is
followed by another `a`, not `b`), then `b`, then the boundary test. -/
def searchAPlusB : List Char → Bool
  | [] => false
  | c :: rest =>
    (decide (c = '#') && !(rest.takeWhile (fun x => decide (x = 'a'))).isEmpty
        && (match rest.dropWhile (fun x => decide (x = 'a')) with
            | 'b' :: r2 => tailBoundaryOk r2
            | _ => false))
      || searchAPlusB rest

/-- Python `str.strip()`: leading and trailing whitespace removed. -/
def pyStrip (s : List Char) : List Char :=
  ((s.dropWhile isSpaceChar).reverse.dropWhile isSpaceChar).reverse

/-- A configuration value that is either an absent key or a string. -/
def strOrAbsent : Option PyVal → Bool
  | Option.none => true
  | some (.str _) => true
  | some _ => false

/-- The day-count validity test of `obsidian_summary.py:96`: an integer of at
least 1. -/
def isValidDays : PyVal → Bool
  | .int n => decide (1 ≤ n)
  | _ => false

/-- A well-formed block: a first line that starts a list item, every further
line passing the continuation test against that item's indent. -/
def blockWF (b : List (List Char)) : Prop :=
  ∃ l0 ls base, b = l0 :: ls ∧ matchListItem l0 = some base
    ∧ ∀ m ∈ ls, continuesBlock base m = true

/-- The open-block invariant carried by the scanner state. -/
def openOk (base : Nat) (acc : List (List Char)) : Prop :=
  ∃ l0 ls, acc.reverse = l0 :: ls ∧ matchListItem l0 = some base
    ∧ ∀ m ∈ ls, continuesBlock base m = true


/-! ## Helper lemmas -/

theorem matchesHere_self : ∀ l : List Char, matchesHere l l = true
  | [] => rfl
  | c :: rest => by simp [matchesHere, matchesHere_self rest]

theorem searchTag_hash {tag : List Char} :
    ∀ {s : List Char}, searchTag tag s = true → '#' ∈ s := by
  intro s
  induction s with
  | nil => intro h; simp [searchTag] at h
  | cons c rest ih =>
    intro h
    simp only [searchTag, Bool.or_eq_true, Bool.and_eq_true, decide_eq_true_eq] at h
    rcases h with ⟨⟨hc, _⟩, _⟩ | h
    · exact hc ▸ List.mem_cons_self _ _
    · exact List.mem_cons_of_mem _ (ih h)

theorem mem_dropWhile_of_neg {p : Char → Bool} {c : Char} (hc : p c = false) :
    ∀ {l : List Char}, c ∈ l → c ∈ l.dropWhile p := by
  intro l
  induction l with
  | nil => intro h; exact absurd h (List.not_mem_nil c)
  | cons a rest ih =>
    intro h
    simp only [List.dropWhile]
    cases hpa : p a with
    | true =>
      rcases List.mem_cons.mp h with rfl | hm
      · rw [hc] at hpa; exact absurd hpa (by simp)
      · simpa using ih hm
    | false => simpa using h

theorem pyStrip_ne_nil {s : List Char} {c : Char} (hmem : c ∈ s)
    (hc : isSpaceChar c = false) : pyStrip s ≠ [] := by
  have h1 : c ∈ s.dropWhile isSpaceChar := mem_dropWhile_of_neg hc hmem
  have h2 : c ∈ (s.dropWhile isSpaceChar).reverse := List.mem_reverse.mpr h1
  have h3 : c ∈ (s.dropWhile isSpaceChar).reverse.dropWhile isSpaceChar :=
    mem_dropWhile_of_neg hc h2
  have h4 : c ∈ pyStrip s := List.mem_reverse.mpr h3
  exact List.ne_nil_of_mem h4

theorem joinWith_cons (sep : List Char) (x : List Char) (xs : List (List Char)) :
    ∃ r, joinWith sep (x :: xs) = x ++ r := by
  cases xs with
  | nil => exact ⟨[], by simp [joinWith]⟩
  | cons y ys => exact ⟨sep ++ joinWith sep (y :: ys), by simp [joinWith]⟩

theorem matchesHere_threeDash_head {s : List Char}
    (h : matchesHere threeDash s = true) : '-' ∈ s := by
  cases s with
  | nil => simp [matchesHere, threeDash, toL] at h
  | cons a t =>
    simp only [matchesHere, threeDash, toL, Bool.and_eq_true, decide_eq_true_eq] at h
    exact h.1 ▸ List.mem_cons_self _ _

/-- If the leading `---` test fails, `_process_frontmatter` is the identity
with an empty mapping. -/
theorem pf_nostart (parse : List Char → Option PyVal) {content : List Char}
    (h : matchesHere threeDash content = false) :
    processFrontmatter parse content = (.dict [], content) := by
  simp [processFrontmatter, h]

/-- If the second delimiter is absent, `_process_frontmatter` is the identity
with an empty mapping. -/
theorem pf_nosecond (parse : List Char → Option PyVal) {content : List Char}
    (h : findTriple content = Option.none) :
    processFrontmatter parse content = (.dict [], content) := by
  simp [processFrontmatter, h]

/-- If the structured parse of the placeholder-substituted header fails,
`_process_frontmatter` is the identity with an empty mapping. -/
theorem pf_badyaml (parse : List Char → Option PyVal) {content : List Char} {i : Nat}
    (hi : findTriple content = some i)
    (h : parse (subTemplate ((content.take i).drop 3)) = Option.none) :
    processFrontmatter parse content = (.dict [], content) := by
  by_cases hs : matchesHere threeDash content
  · simp [processFrontmatter, hs, hi, h]
  · simp [processFrontmatter, hs]

/-- On parse success, `_process_frontmatter` returns the parsed value and the
text after the header. -/
theorem pf_ok (parse : List Char → Option PyVal) {content : List Char} {i : Nat} {v : PyVal}
    (hs : matchesHere threeDash content = true)
    (hi : findTriple content = some i)
    (h : parse (subTemplate ((content.take i).drop 3)) = some v) :
    processFrontmatter parse content = (v, content.drop (i + 3)) := by
  simp [processFrontmatter, hs, hi, h]

theorem scanLines_sound (lines : List (List Char)) :
    ∀ st, (∀ base acc, st = some (base, acc) → openOk base acc) →
      ∀ b ∈ scanLines st lines, blockWF b := by
  induction lines with
  | nil =>
    intro st hst b hb
    match st with
    | Option.none => simp [scanLines] at hb
    | some (base, acc) =>
      simp only [scanLines, List.mem_singleton] at hb
      obtain ⟨l0, ls, hrev, hitem, hcont⟩ := hst base acc rfl
      exact ⟨l0, ls, base, hb ▸ hrev, hitem, hcont⟩
  | cons l rest ih =>
    intro st hst b hb
    match st with
    | Option.none =>
      simp only [scanLines] at hb
      cases hml : matchListItem l with
      | some base =>
        rw [hml] at hb
        refine ih (some (base, [l])) ?_ b hb
        rintro base' acc' heq
        cases heq
        exact ⟨l, [], by simp, hml, by simp⟩
      | none =>
        rw [hml] at hb
        exact ih Option.none (by simp) b hb
    | some (base, acc) =>
      obtain ⟨l0, ls, hrev, hitem, hcont⟩ := hst base acc rfl
      simp only [scanLines] at hb
      by_cases hc : continuesBlock base l
      · rw [if_pos hc] at hb
        refine ih (some (base, l :: acc)) ?_ b hb
        rintro base' acc' heq
        cases heq
        refine ⟨l0, ls ++ [l], ?_, hitem, ?_⟩
        · simp [hrev]
        · intro m hm
          rcases List.mem_append.mp hm with hm | hm
          · exact hcont m hm
          · rw [List.mem_singleton.mp hm]; exact hc
      · rw [if_neg hc] at hb
        rcases List.mem_cons.mp hb with rfl | hb
        · exact ⟨l0, ls, base, hrev, hitem, hcont⟩
        · cases hml : matchListItem l with
          | some b' =>
            rw [hml] at hb
            refine ih (some (b', [l])) ?_ b hb
            rintro base' acc' heq
            cases heq
            exact ⟨l, [], by simp, hml, by simp⟩
          | none =>
            rw [hml] at hb
            exact ih Option.none (by simp) b hb

theorem extractBlocks_sound {lines : List (List Char)} {b : List (List Char)}
    (hb : b ∈ extractBlocks lines) : blockWF b :=
  scanLines_sound lines Option.none (by simp) b hb

theorem all_space_dropWhile_nil :
    ∀ {l : List Char}, l.all isSpaceChar = true → l.dropWhile isSpaceChar = []
  | [], _ => rfl
  | c :: rest, h => by
    simp only [List.all_cons, Bool.and_eq_true] at h
    simp [List.dropWhile, h.1, all_space_dropWhile_nil h.2]

/-- A line that passes the list-item test is not blank. -/
theorem matchListItem_not_blank {l : List Char} (h : (matchListItem l).isSome = true) :
    isBlankLine l = false := by
  by_contra hb
  have hball : l.all isSpaceChar = true := by
    cases hba : isBlankLine l
    · exact absurd hba hb
    · exact hba
  simp [matchListItem, all_space_dropWhile_nil hball] at h

/-! ## Claims -/

/-- C1, counterexample: the claim's word-boundary rule says that for target
tag `project` the text `##project` must not match, yet the scanner retains
the list block `- ##project` — `re.search` of `#project(?:$|\s|[^\w#])`
succeeds starting at the second `#`, while the spec-side word-boundary
matcher rejects the occurrence. -/
theorem claim_C1_counterexample :
    retainedBlocks (toL "project") (toL "- ##project") = [[toL "- ##project"]]
    ∧ specTagMatch (toL "project") (toL "- ##project") = false :=
  ⟨by decide, by decide⟩

/-- C1, amended: a block is retained if and only if the tag regex
`#<tag>(?:$|\s|[^\w#])` matches its joined text; only the character after the
tag word is constrained, so `#project` matches, `#projectplan` does not, and
`##project` does match (the search may start at the second marker). -/
theorem claim_C1_amended :
    (∀ (tag body : List Char) (b : List (List Char)), tag.all isWordChar = true →
      (b ∈ retainedBlocks tag body ↔
        b ∈ extractBlocks (splitlines body) ∧ searchTag tag (joinWith (toL "\n") b) = true))
    ∧ searchTag (toL "project") (toL "#project") = true
    ∧ searchTag (toL "project") (toL "#projectplan") = false
    ∧ searchTag (toL "project") (toL "##project") = true := by
  refine ⟨?_, by decide, by decide, by decide⟩
  intro tag body b _
  simp [retainedBlocks, List.mem_filter]

/-- C1 witness: the retained-iff characterization at the concrete tag `t`
and body `- a #t`. -/
theorem claim_C1_amended_witness :
    [toL "- a #t"] ∈ retainedBlocks (toL "t") (toL "- a #t") ↔
      [toL "- a #t"] ∈ extractBlocks (splitlines (toL "- a #t"))
        ∧ searchTag (toL "t") (joinWith (toL "\n") [toL "- a #t"]) = true :=
  claim_C1_amended.1 (toL "t") (toL "- a #t") [toL "- a #t"] (by decide)

/-- C3, counterexample: the line `  - b` matches the list-item pattern, yet
with an open block of base indent 0 it is appended to that block (continuation
rule 2, deeper indent, fires before any item-start consideration), producing a
single two-line block instead of sealing before the item line. -/
theorem claim_C3_counterexample :
    (matchListItem (toL "  - b")).isSome = true
    ∧ extractBlocks [toL "- a", toL "  - b"] = [[toL "- a", toL "  - b"]] :=
  ⟨by decide, by decide⟩

/-- C3, amended: while inside a block with base indent `base`, a line that
itself matches the list-item pattern continues the block exactly when its
indent is strictly greater than `base`; at an indent of at most `base` the
block is sealed before that line is considered. -/
theorem claim_C3_amended : ∀ (base : Nat) (l : List Char),
    (matchListItem l).isSome = true →
    (continuesBlock base l = true ↔ base < indentOf l) := by
  intro base l h
  have hb := matchListItem_not_blank h
  have hn : (matchListItem l).isNone = false := by
    cases hml : matchListItem l
    · simp [hml] at h
    · simp
  by_cases h2 : base < indentOf l
  · simp [continuesBlock, hb, hn, h2]
  · simp [continuesBlock, hb, hn, h2]

/-- C3 witness: the amended rule at base indent 0 and the item line `  - b`. -/
theorem claim_C3_amended_witness :
    continuesBlock 0 (toL "  - b") = true ↔ 0 < indentOf (toL "  - b") :=
  claim_C3_amended 0 (toL "  - b") (by decide)

/-- C5: the scanner appends a line to the open block exactly when the
continuation test (blank, or deeper indent, or non-item at the base indent or
deeper) passes, and otherwise seals the block and re-examines the same line
from the outside state; every produced block is a list-item line followed
only by continuing lines; a three-line item is one contiguous block; of two
same-indent siblings with only the second tagged, exactly the second is
extracted. -/
theorem claim_C5 :
    (∀ (base : Nat) (acc : List (List Char)) (l : List Char) (rest : List (List Char)),
      (continuesBlock base l = true →
        scanLines (some (base, acc)) (l :: rest) = scanLines (some (base, l :: acc)) rest)
      ∧ (continuesBlock base l = false →
        scanLines (some (base, acc)) (l :: rest)
          = acc.reverse :: scanLines Option.none (l :: rest)))
    ∧ (∀ (lines : List (List Char)) (b : List (List Char)),
        b ∈ extractBlocks lines → blockWF b)
    ∧ extractBlocks [toL "- item #t", toL "  cont one", toL "  cont two"]
        = [[toL "- item #t", toL "  cont one", toL "  cont two"]]
    ∧ extractTagged (toL "t") (toL "- first\n- second #t") = some (toL "- second #t") := by
  refine ⟨?_, fun _ _ h => extractBlocks_sound h, by decide, by decide⟩
  intro base acc l rest
  constructor
  · intro hc; simp [scanLines, hc]
  · intro hc; simp [scanLines, hc]

/-- C5 witness: one continuation step and one block well-formedness instance
at concrete inputs. -/
theorem claim_C5_witness :
    scanLines (some (0, [toL "- a"])) [toL "  b"]
      = scanLines (some (0, [toL "  b", toL "- a"])) []
    ∧ blockWF [toL "- a"] :=
  ⟨(claim_C5.1 0 [toL "- a"] (toL "  b") []).1 (by decide),
   claim_C5.2.1 [toL "- a"] [toL "- a"] (by decide)⟩

/-- C10: the target tag is interpolated into the pattern without escaping —
for word-character tags the pattern matches the literal marker-plus-tag text,
but for the metacharacter tag `a+b` the compiled pattern
`#a+b(?:$|\s|[^\w#])` matches `#aab`, a text that does not contain the
literal `#a+b`. -/
theorem claim_C10 :
    (∀ tag : List Char, tag.all isWordChar = true → searchTag tag ('#' :: tag) = true)
    ∧ searchAPlusB (toL "#aab") = true
    ∧ containsSub (toL "#a+b") (toL "#aab") = false := by
  refine ⟨?_, by decide, by decide⟩
  intro tag _
  simp [searchTag, matchesHere_self, List.drop_length, tailBoundaryOk]

/-- C10 witness: the literal-match half at the concrete word tag `ab`. -/
theorem claim_C10_witness : searchTag (toL "ab") ('#' :: toL "ab") = true :=
  claim_C10.1 (toL "ab") (by decide)

/-- The result of `strptime` on a string is a parse or a `ValueError`. -/
theorem strptimeHM_str (s : List Char) :
    (∃ m, strptimeHM (.str s) = .ok m) ∨ strptimeHM (.str s) = .error .valueError := by
  cases hp : parseHHMM s with
  | none => right; simp [strptimeHM, hp]
  | some m => left; exact ⟨m, by simp [strptimeHM, hp]⟩

/-- A string-or-absent configuration value reaches `strptime` as a string. -/
theorem strOrAbsent_getD {o : Option PyVal} (h : strOrAbsent o = true) (d : List Char) :
    ∃ s, o.getD (.str d) = .str s := by
  match o with
  | Option.none => exact ⟨d, rfl⟩
  | some (.str t) => exact ⟨t, rfl⟩
  | some .pynone => simp [strOrAbsent] at h
  | some (.int _) => simp [strOrAbsent] at h
  | some (.list _) => simp [strOrAbsent] at h
  | some (.dict _) => simp [strOrAbsent] at h

/-- C4, counterexample: with the well-formed inputs `days = 1`,
`startTime = 12:00`, `endTime = 00:00` the computed window has
`start = (today, 12:00)` and `end = (today, 00:00)`, so `start <= end`
fails. -/
theorem claim_C4_counterexample :
    getSearchPeriod 0 ⟨some (.int 1), some (.str (toL "12:00")), some (.str (toL "00:00"))⟩
      = .ok (⟨0, 720⟩, ⟨0, 0⟩)
    ∧ dtLE ⟨0, 720⟩ ⟨0, 0⟩ = false :=
  ⟨rfl, rfl⟩

/-- C4, amended: for a valid integer day count and well-formed `HH:MM` times
the window is `(today - (days-1), start)` to `(today, end)`, and
`start <= end` holds precisely when `days >= 2` or the start time of day is
not after the end time of day — it is not enforced unconditionally. -/
theorem claim_C4_amended : ∀ (today d : Int) (sv ev : List Char) (s e : Nat),
    1 ≤ d → parseHHMM sv = some s → parseHHMM ev = some e →
    getSearchPeriod today ⟨some (.int d), some (.str sv), some (.str ev)⟩
      = .ok (⟨today - (d - 1), s⟩, ⟨today, e⟩)
    ∧ (dtLE ⟨today - (d - 1), s⟩ ⟨today, e⟩ = true ↔ 2 ≤ d ∨ s ≤ e) := by
  intro today d sv ev s e hd hs he
  refine ⟨?_, ?_⟩
  · simp [getSearchPeriod, pyTimes, strptimeHM, hs, he, pyDays, hd]
  · simp only [dtLE, Bool.or_eq_true, Bool.and_eq_true, decide_eq_true_eq]
    omega

/-- C4 witness: the amended statement at `days = 1`, start `12:00`,
end `13:00`. -/
theorem claim_C4_amended_witness :
    getSearchPeriod 0 ⟨some (.int 1), some (.str (toL "12:00")), some (.str (toL "13:00"))⟩
      = .ok (⟨0 - (1 - 1), 720⟩, ⟨0, 780⟩)
    ∧ (dtLE ⟨0 - (1 - 1), 720⟩ ⟨0, 780⟩ = true ↔ 2 ≤ (1 : Int) ∨ 720 ≤ 780) :=
  claim_C4_amended 0 1 (toL "12:00") (toL "13:00") 720 780 (by decide) rfl rfl

/-- C7, counterexample: a non-string `startTime` (for example the integer 750
that YAML makes of an unquoted `12:30`) makes `strptime` raise `TypeError`,
which the `except ValueError` clause does not catch, so the computation
raises instead of falling back to defaults. -/
theorem claim_C7_counterexample :
    getSearchPeriod 0 ⟨Option.none, some (.int 750), Option.none⟩ = .error .typeError :=
  rfl

/-- C7, amended: the computation never raises when `startTime` and `endTime`
are strings or absent; a day count that is not a positive integer is treated
as 1; a string time that fails `HH:MM` parsing makes both times fall back to
the defaults `00:00`/`23:59`.  A non-string time, however, raises `TypeError`
(only `ValueError` is caught). -/
theorem claim_C7_amended :
    (∀ (today : Int) (sp : SearchPeriod),
      strOrAbsent sp.startTime = true → strOrAbsent sp.endTime = true →
      ∃ w, getSearchPeriod today sp = .ok w)
    ∧ (∀ (today : Int) (v : PyVal) (sv ev : Option PyVal), isValidDays v = false →
      getSearchPeriod today ⟨some v, sv, ev⟩ = getSearchPeriod today ⟨some (.int 1), sv, ev⟩)
    ∧ (∀ (today : Int) (dv : Option PyVal) (s : List Char) (ev : Option PyVal),
      parseHHMM s = Option.none →
      getSearchPeriod today ⟨dv, some (.str s), ev⟩
        = getSearchPeriod today ⟨dv, Option.none, Option.none⟩) := by
  refine ⟨?_, ?_, ?_⟩
  · intro today sp h1 h2
    obtain ⟨s1, hs1⟩ := strOrAbsent_getD h1 (toL "00:00")
    obtain ⟨s2, hs2⟩ := strOrAbsent_getD h2 (toL "23:59")
    have hex : ∃ p, pyTimes sp = .ok p := by
      rcases strptimeHM_str s1 with ⟨m, hm⟩ | hv
      · rcases strptimeHM_str s2 with ⟨m2, hm2⟩ | hv2
        · exact ⟨(m, m2), by simp [pyTimes, hs1, hm, hs2, hm2]⟩
        · exact ⟨(0, 23 * 60 + 59), by simp [pyTimes, hs1, hm, hs2, hv2]⟩
      · exact ⟨(0, 23 * 60 + 59), by simp [pyTimes, hs1, hv]⟩
    obtain ⟨⟨ms, me⟩, hpt⟩ := hex
    exact ⟨(⟨today - (pyDays sp - 1), ms⟩, ⟨today, me⟩), by simp [getSearchPeriod, hpt]⟩
  · intro today v sv ev hv
    have hpt : pyTimes ⟨some v, sv, ev⟩ = pyTimes ⟨some (.int 1), sv, ev⟩ := rfl
    have hd : pyDays ⟨some v, sv, ev⟩ = 1 := by
      match v with
      | .int n =>
        simp only [isValidDays, decide_eq_false_iff_not] at hv
        simp [pyDays, hv]
      | .pynone => rfl
      | .str _ => rfl
      | .list _ => rfl
      | .dict _ => rfl
    have hd1 : pyDays ⟨some (.int 1), sv, ev⟩ = 1 := by simp [pyDays]
    simp only [getSearchPeriod, hpt, hd, hd1]
  · intro today dv s ev hp
    have h1 : pyTimes ⟨dv, some (.str s), ev⟩ = .ok (0, 23 * 60 + 59) := by
      simp [pyTimes, strptimeHM, hp]
    have h2 : pyTimes ⟨dv, Option.none, Option.none⟩ = .ok (0, 23 * 60 + 59) := rfl
    have hd : pyDays ⟨dv, some (.str s), ev⟩ = pyDays ⟨dv, Option.none, Option.none⟩ := rfl
    simp only [getSearchPeriod, h1, h2, hd]

/-- C7 witness: totality with all keys absent, an invalid day count treated
as 1, and an unparsable start time falling back to the defaults. -/
theorem claim_C7_amended_witness :
    (∃ w, getSearchPeriod 0 ⟨Option.none, Option.none, Option.none⟩ = .ok w)
    ∧ getSearchPeriod 0 ⟨some (.str (toL "x")), Option.none, Option.none⟩
        = getSearchPeriod 0 ⟨some (.int 1), Option.none, Option.none⟩
    ∧ getSearchPeriod 0 ⟨Option.none, some (.str (toL "9999")), Option.none⟩
        = getSearchPeriod 0 ⟨Option.none, Option.none, Option.none⟩ :=
  ⟨claim_C7_amended.1 0 ⟨Option.none, Option.none, Option.none⟩ rfl rfl,
   claim_C7_amended.2.1 0 (.str (toL "x")) Option.none Option.none rfl,
   claim_C7_amended.2.2 0 Option.none (toL "9999") Option.none rfl⟩

/-- C8: the frontmatter parser is total, returns the empty mapping and the
unchanged text when the text does not start with the delimiter, when no
second delimiter occurrence exists, or when the structured parse of the
placeholder-substituted header fails; on parse success it returns the parsed
value and the text after the header. -/
theorem claim_C8 :
    (∀ (parse : List Char → Option PyVal) (content : List Char),
      matchesHere threeDash content = false →
      processFrontmatter parse content = (.dict [], content))
    ∧ (∀ (parse : List Char → Option PyVal) (content : List Char),
      matchesHere threeDash content = true → findTriple content = Option.none →
      processFrontmatter parse content = (.dict [], content))
    ∧ (∀ (parse : List Char → Option PyVal) (content : List Char) (i : Nat),
      matchesHere threeDash content = true → findTriple content = some i →
      parse (subTemplate ((content.take i).drop 3)) = Option.none →
      processFrontmatter parse content = (.dict [], content))
    ∧ (∀ (parse : List Char → Option PyVal) (content : List Char) (i : Nat) (v : PyVal),
      matchesHere threeDash content = true → findTriple content = some i →
      parse (subTemplate ((content.take i).drop 3)) = some v →
      processFrontmatter parse content = (v, content.drop (i + 3))) :=
  ⟨fun p _ h => pf_nostart p h,
   fun p _ _ h2 => pf_nosecond p h2,
   fun p _ _ _ hi h => pf_badyaml p hi h,
   fun p _ _ _ hs hi h => pf_ok p hs hi h⟩

/-- C8 witness: a text with no delimiter is returned unchanged, and a parsed
header yields the parsed value plus the text after the header. -/
theorem claim_C8_witness :
    processFrontmatter (fun _ => Option.none) (toL "x") = (.dict [], toL "x")
    ∧ processFrontmatter (fun _ => some (.int 7)) (toL "---a---b") = (.int 7, toL "b") :=
  ⟨claim_C8.1 (fun _ => Option.none) (toL "x") (by decide),
   claim_C8.2.2.2 (fun _ => some (.int 7)) (toL "---a---b") 4 (.int 7) (by decide) rfl rfl⟩

/-- C2, counterexample: a per-file read error (`IOError`) aborts the whole
scan — the note of the following, perfectly processable file is lost — even
though the same second file alone yields a result.  Only the
modification-time `FileNotFoundError` is caught per file. -/
theorem claim_C2_counterexample :
    findTaggedNotes (fun _ => Option.none) ⟨toL "t", 0, ⟨Option.none, Option.none, Option.none⟩⟩
      [⟨toL "bad.md", .ok ⟨0, 0⟩, .error .ioError⟩,
       ⟨toL "good.md", .ok ⟨0, 0⟩, .ok (toL "- x #t")⟩]
      = .error .ioError
    ∧ findTaggedNotes (fun _ => Option.none) ⟨toL "t", 0, ⟨Option.none, Option.none, Option.none⟩⟩
        [⟨toL "good.md", .ok ⟨0, 0⟩, .ok (toL "- x #t")⟩]
      = .ok [(toL "good.md", toL "- x #t")] :=
  ⟨rfl, rfl⟩

/-- C2, amended: the only per-file failure that is caught, logged and skipped
is a `FileNotFoundError` from the modification-time lookup; any other
exception raised while processing an individual file (such as a read error)
propagates and aborts the scan. -/
theorem claim_C2_amended :
    (∀ (parse : List Char → Option PyVal) (cfg : ScanConfig) (e : FileEntry)
      (rest : List FileEntry),
      e.mtime = .error .fileNotFound →
      findTaggedNotes parse cfg (e :: rest) = findTaggedNotes parse cfg rest)
    ∧ (∀ (parse : List Char → Option PyVal) (cfg : ScanConfig) (e : FileEntry)
      (rest : List FileEntry) (t : PyDateTime) (w : PyDateTime × PyDateTime) (err : PyErr),
      e.mtime = .ok t →
      getSearchPeriod cfg.today cfg.period = .ok w →
      (dtLE w.1 t && dtLE t w.2) = true →
      e.content = .error err →
      findTaggedNotes parse cfg (e :: rest) = .error err) := by
  constructor
  · intro parse cfg e rest hm
    cases hw : getSearchPeriod cfg.today cfg.period with
    | error er => simp [findTaggedNotes, hw]
    | ok w => simp [findTaggedNotes, hw, scanFiles, scanFile, hm]
  · intro parse cfg e rest t w err hm hw hin hc
    simp [findTaggedNotes, hw, scanFiles, scanFile, hm, hin, hc]

/-- C2 witness: a vanished file is skipped, while a read error on an in-window
file aborts the scan with that error. -/
theorem claim_C2_amended_witness :
    findTaggedNotes (fun _ => Option.none) ⟨toL "t", 0, ⟨Option.none, Option.none, Option.none⟩⟩
      [⟨toL "gone.md", .error .fileNotFound, .ok []⟩]
      = findTaggedNotes (fun _ => Option.none)
          ⟨toL "t", 0, ⟨Option.none, Option.none, Option.none⟩⟩ []
    ∧ findTaggedNotes (fun _ => Option.none)
        ⟨toL "t", 0, ⟨Option.none, Option.none, Option.none⟩⟩
        [⟨toL "bad.md", .ok ⟨0, 0⟩, .error .ioError⟩]
      = .error .ioError :=
  ⟨claim_C2_amended.1 _ _ _ [] rfl,
   claim_C2_amended.2 _ _ _ [] ⟨0, 0⟩ (⟨0, 0⟩, ⟨0, 1439⟩) .ioError rfl rfl (by decide) rfl⟩

/-- C6: when the normalized frontmatter tag value contains the target tag,
the scanner's output pair for that file carries the entire original raw
content (header included) and the block extraction is never consulted: the
scan of `e :: rest` is the scan of `rest` with `(e.path, content)` prepended. -/
theorem claim_C6 : ∀ (parse : List Char → Option PyVal) (cfg : ScanConfig) (e : FileEntry)
    (rest : List FileEntry) (content : List Char) (t : PyDateTime)
    (w : PyDateTime × PyDateTime) (raw : PyVal),
    e.mtime = .ok t →
    getSearchPeriod cfg.today cfg.period = .ok w →
    (dtLE w.1 t && dtLE t w.2) = true →
    e.content = .ok content →
    fmGet (processFrontmatter parse content).1 tagsKey (.list []) = .ok raw →
    tagMember cfg.targetTag (normalizeTags raw) = .ok true →
    findTaggedNotes parse cfg (e :: rest)
      = (findTaggedNotes parse cfg rest).map (fun l => (e.path, content) :: l) := by
  intro parse cfg e rest content t w raw hm hw hin hc hraw htm
  have hsf : scanFile parse cfg.targetTag w e = .ok (some (e.path, content)) := by
    simp [scanFile, hm, hin, hc, processNote, hraw, htm]
  simp only [findTaggedNotes, hw, scanFiles, hsf]
  cases scanFiles parse cfg.targetTag w rest with
  | error er => rfl
  | ok l => rfl

/-- C6 witness: a note whose header tags contain the target is emitted with
its full original content, frontmatter header included. -/
theorem claim_C6_witness :
    findTaggedNotes (fun _ => some (.dict [(tagsKey, .list [.str (toL "t")])]))
      ⟨toL "t", 0, ⟨Option.none, Option.none, Option.none⟩⟩
      [⟨toL "a.md", .ok ⟨0, 5⟩, .ok (toL "---\nx\n---\nbody")⟩]
      = (findTaggedNotes (fun _ => some (.dict [(tagsKey, .list [.str (toL "t")])]))
          ⟨toL "t", 0, ⟨Option.none, Option.none, Option.none⟩⟩ []).map
          (fun l => (toL "a.md", toL "---\nx\n---\nbody") :: l) :=
  claim_C6 (fun _ => some (.dict [(tagsKey, .list [.str (toL "t")])]))
    ⟨toL "t", 0, ⟨Option.none, Option.none, Option.none⟩⟩
    ⟨toL "a.md", .ok ⟨0, 5⟩, .ok (toL "---\nx\n---\nbody")⟩ []
    (toL "---\nx\n---\nbody") ⟨0, 5⟩ (⟨0, 0⟩, ⟨0, 1439⟩) (.list [.str (toL "t")])
    rfl rfl (by decide) rfl rfl rfl

/-- A note the classifier accepts yields text that survives trimming: in the
frontmatter-tag branch the content starts with `-`, and in the block branch
the joined text contains the `#` of a tag match. -/
theorem processNote_strip {parse : List Char → Option PyVal} {target content txt : List Char}
    (h : processNote parse target content = .ok (some txt)) : pyStrip txt ≠ [] := by
  unfold processNote at h
  cases hraw : fmGet (processFrontmatter parse content).1 tagsKey (.list []) with
  | error er => simp [hraw] at h
  | ok raw =>
    simp only [hraw] at h
    cases htm : tagMember target (normalizeTags raw) with
    | error er => simp [htm] at h
    | ok b =>
      simp only [htm] at h
      cases b with
      | true =>
        have hco : content = txt := by simpa using h
        by_cases hs : matchesHere threeDash content
        · exact hco ▸ pyStrip_ne_nil (matchesHere_threeDash_head hs) (by decide)
        · exfalso
          rw [pf_nostart parse (Bool.eq_false_iff.mpr hs)] at hraw
          have hrl : raw = .list [] := by
            have := hraw
            simp [fmGet, List.lookup] at this
            exact this.symm
          rw [hrl] at htm
          simp [normalizeTags, tagMember] at htm
      | false =>
        simp only [extractTagged] at h
        by_cases hst : searchTag target (processFrontmatter parse content).2
        · rw [if_pos hst] at h
          by_cases hemp : (retainedBlocks target (processFrontmatter parse content).2).isEmpty
          · rw [if_pos hemp] at h; simp at h
          · rw [if_neg hemp] at h
            have htxt : joinWith (toL "\n\n")
                ((retainedBlocks target (processFrontmatter parse content).2).map
                  (joinWith (toL "\n"))) = txt := by
              simpa using h
            cases htg : retainedBlocks target (processFrontmatter parse content).2 with
            | nil => rw [htg] at hemp; simp [List.isEmpty] at hemp
            | cons b0 bs =>
              have hb0 : b0 ∈ retainedBlocks target (processFrontmatter parse content).2 :=
                htg ▸ List.mem_cons_self _ _
              have hsb : searchTag target (joinWith (toL "\n") b0) = true :=
                (List.mem_filter.mp hb0).2
              have hhash : '#' ∈ joinWith (toL "\n") b0 := searchTag_hash hsb
              obtain ⟨r, hr⟩ :=
                joinWith_cons (toL "\n\n") (joinWith (toL "\n") b0)
                  (bs.map (joinWith (toL "\n")))
              have hmem : '#' ∈ txt := by
                rw [← htxt, htg, List.map_cons, hr]
                exact List.mem_append_left _ hhash
              exact pyStrip_ne_nil hmem (by decide)
        · rw [if_neg hst] at h; simp at h

/-- A pair the per-file step emits carries classifier-accepted text. -/
theorem scanFile_strip {parse : List Char → Option PyVal} {target : List Char}
    {w : PyDateTime × PyDateTime} {e : FileEntry} {pr : List Char × List Char}
    (h : scanFile parse target w e = .ok (some pr)) : pyStrip pr.2 ≠ [] := by
  unfold scanFile at h
  cases hm : e.mtime with
  | error er =>
    rw [hm] at h
    cases er <;> simp_all
  | ok t =>
    simp only [hm] at h
    by_cases hin : (dtLE w.1 t && dtLE t w.2) = true
    · rw [if_pos hin] at h
      cases hc : e.content with
      | error er => simp [hc] at h
      | ok content =>
        simp only [hc] at h
        cases hp : processNote parse target content with
        | error er => simp [hp] at h
        | ok o =>
          simp only [hp] at h
          cases o with
          | none => simp at h
          | some txt =>
            have hpr : (e.path, txt) = pr := by simpa using h
            rw [← hpr]
            exact processNote_strip hp
    · rw [if_neg hin] at h; simp at h

/-- Every pair in a successful scan's result carries text that survives
trimming. -/
theorem scanFiles_strip {parse : List Char → Option PyVal} {target : List Char}
    {w : PyDateTime × PyDateTime} :
    ∀ {files : List FileEntry} {res : List (List Char × List Char)},
    scanFiles parse target w files = .ok res → ∀ pr ∈ res, pyStrip pr.2 ≠ [] := by
  intro files
  induction files with
  | nil =>
    intro res h pr hpr
    have : ([] : List (List Char × List Char)) = res := by simpa [scanFiles] using h
    rw [← this] at hpr
    exact absurd hpr (List.not_mem_nil pr)
  | cons e rest ih =>
    intro res h pr hpr
    unfold scanFiles at h
    cases hf : scanFile parse target w e with
    | error er => rw [hf] at h; simp at h
    | ok o =>
      rw [hf] at h
      cases o with
      | none => exact ih h pr hpr
      | some pr0 =>
        cases hr : scanFiles parse target w rest with
        | error er => rw [hr] at h; simp at h
        | ok l =>
          rw [hr] at h
          have hres : pr0 :: l = res := by simpa using h
          rw [← hres] at hpr
          rcases List.mem_cons.mp hpr with rfl | hmem
          · exact scanFile_strip hf
          · exact ih hr pr hmem

/-- C9: whenever the scan succeeds, every `(path, extractedText)` pair it
collected has text that is non-empty after trimming whitespace. -/
theorem claim_C9 : ∀ (parse : List Char → Option PyVal) (cfg : ScanConfig)
    (files : List FileEntry) (res : List (List Char × List Char)),
    cfg.targetTag.all isWordChar = true →
    findTaggedNotes parse cfg files = .ok res →
    ∀ pr ∈ res, pyStrip pr.2 ≠ [] := by
  intro parse cfg files res _ hres
  unfold findTaggedNotes at hres
  cases hw : getSearchPeriod cfg.today cfg.period with
  | error er => rw [hw] at hres; exact absurd hres (by simp)
  | ok w => rw [hw] at hres; exact scanFiles_strip hres

/-- C9 witness: the invariant at a concrete one-file scan, evaluated at the
single pair the scan produces. -/
theorem claim_C9_witness : pyStrip (toL "- x #t") ≠ [] :=
  claim_C9 (fun _ => Option.none) ⟨toL "t", 0, ⟨Option.none, Option.none, Option.none⟩⟩
    [⟨toL "good.md", .ok ⟨0, 0⟩, .ok (toL "- x #t")⟩] [(toL "good.md", toL "- x #t")]
    (by decide) rfl (toL "good.md", toL "- x #t") (by decide)
